import Mathlib

/-!
Verification of the scrape-orchestration engine of the amazon-best-sellers-dw
repository: the convergence-based lazy-load scroller, the pagination traversal,
the incremental review loader, the outcome classifier and the batch driver with
cooperative cancellation.

Each definition is a shallow embedding of the Python function it is named
after (source files `src/scraping/best_sells_scraping.py`,
`src/scraping/page_scraping.py`, `src/pipelines/load/load_products_details.py`).
External collaborators (the rendered page, the database) are modelled as
oracles: streams of the values their successive calls return.
-/

namespace Dw

/-! ## Convergence scroller, observation-sequence model

`LazyLoadScrollHandler.scroll_until_all_loaded`
(`best_sells_scraping.py` lines 220-251) and
`ReviewScrollHandler.scroll_until_all_loaded`
(`page_scraping.py` lines 163-195) keep `last_count` and `no_change_count`;
each time the scroll position reaches the page height they read a fresh item
count (`_wait_and_count_products` / `_wait_and_count_reviews`), increment the
streak on `current_count == last_count` and otherwise reset it and store the
new count, exiting once `no_change_count` reaches `max_no_change_attempts`.

`scrollObserve` runs exactly that update loop on an injected list of successive
count observations, instrumented to also return how many observations were
consumed; `none` means the injected list ran out before the streak filled. -/

/-- The streak-update loop of `scroll_until_all_loaded`, consuming the injected
observation list. Arguments mirror the Python locals `last_count` and
`no_change_count`; `used` counts consumed observations. -/
def scrollObserve (maxStreak : Nat) : List Nat → Nat → Nat → Nat → Option (Nat × Nat)
  | counts, last, streak, used =>
    if maxStreak ≤ streak then some (last, used)
    else
      match counts with
      | [] => none
      | c :: rest =>
          if c = last then scrollObserve maxStreak rest last (streak + 1) (used + 1)
          else scrollObserve maxStreak rest c 0 (used + 1)

/-- `scroll_until_all_loaded` on an injected count sequence: `last_count` and
`no_change_count` start at `0` (lines 229-230). -/
def scrollUntilStable (maxStreak : Nat) (counts : List Nat) : Option (Nat × Nat) :=
  scrollObserve maxStreak counts 0 0 0

/-- One observation of the streak automaton: the `if current_count == last_count`
update of `(last_count, no_change_count)` (lines 240-246). -/
def streakStep (p : Nat × Nat) (c : Nat) : Nat × Nat :=
  if c = p.1 then (p.1, p.2 + 1) else (c, 0)

/-- The streak automaton state after a list of observations, from the initial
`(last_count, no_change_count) = (0, 0)`. -/
def streakFold (counts : List Nat) : Nat × Nat :=
  counts.foldl streakStep (0, 0)

/-! ## Convergence scroller, full page model

The full loop of `scroll_until_all_loaded` also tracks the scroll position and
the page height.  The render surface is modelled by two streams: `heights k` is
the value of the k-th `execute_script("return document.body.scrollHeight")`
call, and `counts k` the item count read from the k-th `page_source` read. -/

/-- The values successive render-surface reads return. -/
structure Surface where
  heights : Nat → Nat
  counts : Nat → Nat

/-- The loop state of `scroll_until_all_loaded`: the Python locals plus read
counters (`hIdx` height reads, `cIdx` count reads, `sIdx` scroll scripts). -/
structure ScrollSt where
  lastCount : Nat
  noChange : Nat
  pos : Nat
  hIdx : Nat
  cIdx : Nat
  sIdx : Nat
deriving DecidableEq, Repr

/-- One iteration of the `while no_change_count < max_no_change_attempts` body
(`best_sells_scraping.py` lines 233-248): read the page height, advance the
scroll position by `step` (`_scroll_down`), and if the position reached the
height, read a fresh count, update the streak, and clamp the position back to
the pre-growth height when the page grew (`_update_scroll_position`). -/
def scrollIter (step : Nat) (S : Surface) (st : ScrollSt) : ScrollSt :=
  let pageHeight := S.heights st.hIdx
  let pos' := st.pos + step
  if pageHeight ≤ pos' then
    let current := S.counts st.cIdx
    let upd : Nat × Nat :=
      if current = st.lastCount then (st.lastCount, st.noChange + 1) else (current, 0)
    let newHeight := S.heights (st.hIdx + 1)
    let pos'' := if pageHeight < newHeight then pageHeight else pos'
    ⟨upd.1, upd.2, pos'', st.hIdx + 2, st.cIdx + 1, st.sIdx + 1⟩
  else
    ⟨st.lastCount, st.noChange, pos', st.hIdx + 1, st.cIdx, st.sIdx + 1⟩

/-- Fuelled execution of the scroll loop: `none` means the loop was still
running after `fuel` iterations; `some v` means it exited returning
`last_count = v`. -/
def scrollRun (maxAttempts step : Nat) (S : Surface) : Nat → ScrollSt → Option Nat
  | 0, st => if maxAttempts ≤ st.noChange then some st.lastCount else none
  | fuel + 1, st =>
      if maxAttempts ≤ st.noChange then some st.lastCount
      else scrollRun maxAttempts step S fuel (scrollIter step S st)

/-- `LazyLoadScrollHandler.scroll_until_all_loaded`: the loop started from
`last_count = 0`, `no_change_count = 0`, `scroll_position = 0` (lines 229-231). -/
def scroll_until_all_loaded (maxAttempts step : Nat) (S : Surface) (fuel : Nat) : Option Nat :=
  scrollRun maxAttempts step S fuel ⟨0, 0, 0, 0, 0, 0⟩

/-- The scroller terminates on surface `S`: some finite number of iterations
makes the loop exit. -/
def ScrollTerminates (maxAttempts step : Nat) (S : Surface) : Prop :=
  ∃ fuel v, scroll_until_all_loaded maxAttempts step S fuel = some v

/-- A page whose k-th count read reports `k + 1` items (the page keeps growing
on every look) and whose height reads report `0` so that every iteration
observes. -/
def divergingSurface : Surface :=
  ⟨fun _ => 0, fun k => k + 1⟩

/-! ## Convergence scroller, faulting render surface

`ReviewScrollHandler.scroll_until_all_loaded` (`page_scraping.py` lines
163-195) runs the same loop, started from the current `window.pageYOffset`,
between a `_scroll_to_reviews_section` and a `_scroll_to_review_list` call.
Only those two helpers wrap their script in `try/except: pass` (lines
197-215); the height reads, the `window.scrollTo` scripts and the
`page_source` reads inside the loop have no handler, so a fault they raise
propagates out of `scroll_until_all_loaded`.  Reads are modelled in `Except`:
`.error e` is a raised fault. -/

/-- A render surface whose operations may raise. -/
structure ExcSurface where
  heights : Nat → Except String Nat
  counts : Nat → Except String Nat
  scrolls : Nat → Except String Unit
  initPos : Except String Nat
  medleyView : Except String Unit
  listView : Except String Unit

/-- One loop iteration over a faulting surface; the first raised fault
escapes (there is no `try` around the loop body). -/
def scrollIterE (step : Nat) (S : ExcSurface) (st : ScrollSt) : Except String ScrollSt :=
  match S.heights st.hIdx with
  | .error e => .error e
  | .ok pageHeight =>
    match S.scrolls st.sIdx with
    | .error e => .error e
    | .ok _ =>
      let pos' := st.pos + step
      if pageHeight ≤ pos' then
        match S.counts st.cIdx with
        | .error e => .error e
        | .ok current =>
          match S.heights (st.hIdx + 1) with
          | .error e => .error e
          | .ok newHeight =>
            let upd : Nat × Nat :=
              if current = st.lastCount then (st.lastCount, st.noChange + 1) else (current, 0)
            let pos'' := if pageHeight < newHeight then pageHeight else pos'
            .ok ⟨upd.1, upd.2, pos'', st.hIdx + 2, st.cIdx + 1, st.sIdx + 1⟩
      else .ok ⟨st.lastCount, st.noChange, pos', st.hIdx + 1, st.cIdx, st.sIdx + 1⟩

/-- Fuelled loop over a faulting surface: `some (.error e)` means the loop
raised `e`; `some (.ok v)` a normal exit; `none` out of fuel. -/
def scrollRunE (maxAttempts step : Nat) (S : ExcSurface) :
    Nat → ScrollSt → Option (Except String Nat)
  | 0, st => if maxAttempts ≤ st.noChange then some (.ok st.lastCount) else none
  | fuel + 1, st =>
      if maxAttempts ≤ st.noChange then some (.ok st.lastCount)
      else
        match scrollIterE step S st with
        | .error e => some (.error e)
        | .ok st' => scrollRunE maxAttempts step S fuel st'

/-- `ReviewScrollHandler.scroll_until_all_loaded` over a faulting surface:
the `_scroll_to_reviews_section` fault is swallowed (`try/except: pass`), the
`window.pageYOffset` read (`_get_current_scroll_position`, no handler)
propagates, the loop runs, and the final `_scroll_to_review_list` fault is
swallowed again. -/
def review_scroll_until_all_loaded (maxAttempts step : Nat) (S : ExcSurface) (fuel : Nat) :
    Option (Except String Nat) :=
  let _ := S.medleyView
  match S.initPos with
  | .error e => some (.error e)
  | .ok p0 =>
    match scrollRunE maxAttempts step S fuel ⟨0, 0, p0, 0, 0, 0⟩ with
    | some (.ok v) =>
        let _ := S.listView
        some (.ok v)
    | r => r

/-- A surface whose very first height read raises. -/
def faultingSurface : ExcSurface :=
  ⟨fun _ => .error "read timeout", fun _ => .ok 0, fun _ => .ok (), .ok 0, .ok (), .ok ()⟩

/-! ## Data model of the detail ETL (`load_products_details.py`) -/

/-- `ScrapeStatus` (`load_products_details.py` lines 75-84). -/
inductive ScrapeStatus where
  | success | skipped | no_data | server_error
  | network_error | parse_error | interrupted | unknown_error
deriving DecidableEq, Repr

/-- `Review` (`page_scraping.py` lines 30-39). -/
structure Review where
  review_id : String
  stars : String
  date : String
  location : String
  title : String
  text : String
  verified_purchase : Bool
  helpful_count : String
deriving DecidableEq, Repr

/-- `StarHistogram` (`page_scraping.py` lines 55-62). -/
structure StarHistogram where
  five_star : String
  four_star : String
  three_star : String
  two_star : String
  one_star : String
deriving DecidableEq, Repr

/-- `ProductDetails` (`page_scraping.py` lines 83-93). -/
structure ProductDetails where
  price : String
  asin : String
  brand : String
  url : String
  rating : String
  total_reviews : String
  star_histogram : StarHistogram
  reviews : List Review
deriving DecidableEq, Repr

/-- The kind of a raised fault, matching the `except` clauses of
`scrape_and_load_product_details` (lines 835-884): `KeyboardInterrupt`,
`ConnectionError`, `TimeoutError`, and any other `Exception`. -/
inductive FaultKind where
  | keyboardInterrupt | connectionError | timeoutError | otherError
deriving DecidableEq, Repr

/-- A raised fault: its Python class and its `str(e)` message. -/
structure Fault where
  kind : FaultKind
  msg : String
deriving DecidableEq, Repr

/-- `ScrapeResult` (`load_products_details.py` lines 87-95). -/
structure ScrapeResult where
  asin : String
  status : ScrapeStatus
  message : String
  price_saved : Bool
  reviews_added : Nat
  details_saved : Bool
deriving DecidableEq, Repr

/-- The database collaborator, as the outcomes its writes would report:
`existing_ids` is what `get_existing_review_ids` returns (lines 241-255),
`detailsOk`/`priceOk`/`statusOk` whether `insert_product_details`,
`insert_price_history` and `update_product_details_status` commit, and
`reviewOk k` whether the k-th individual review `INSERT` commits. -/
structure DbOracle where
  existing_ids : List String
  detailsOk : Bool
  priceOk : Bool
  statusOk : Bool
  reviewOk : Nat → Bool

/-- Which side effects one call of `scrape_and_load_product_details`
performed: whether the page scrape and each write path was attempted, and
whether the catalog status row was actually updated. -/
structure ScrapeEffects where
  scrapeAttempted : Bool
  detailsAttempted : Bool
  priceAttempted : Bool
  reviewsAttempted : Bool
  statusAttempted : Bool
  statusUpdated : Bool
deriving DecidableEq, Repr

/-- Effects of an attempt that did nothing. -/
def noEffects : ScrapeEffects := ⟨false, false, false, false, false, false⟩

/-! ## String helpers: lowercase substring matching

`detect_server_block` (line 687) and the generic `except` handler (line 871)
test `any(word in error_msg for word in [...])` on `str(e).lower()`. -/

/-- Whether `needle` starts the list `hay`. -/
def startsWithL : List Char → List Char → Bool
  | [], _ => true
  | _ :: _, [] => false
  | a :: ns, b :: hs => a == b && startsWithL ns hs

/-- Whether `needle` occurs contiguously inside `hay`
(Python `needle in hay` on strings). -/
def containsSub : List Char → List Char → Bool
  | [], needle => startsWithL needle []
  | c :: t, needle => startsWithL needle (c :: t) || containsSub t needle

/-- `str.lower()` (ASCII, which is all the vocabulary needs). -/
def toLowerStr (s : String) : String := ⟨s.data.map Char.toLower⟩

/-- `any(word in msg.lower() for word in words)`. -/
def msgContainsAny (msg : String) (words : List String) : Bool :=
  words.any (fun w => containsSub (toLowerStr msg).data w.data)

/-- The block vocabulary of `detect_server_block` (line 687). -/
def detectBlockWords : List String :=
  ["captcha", "503", "429", "rate limit", "blocked", "denied"]

/-- The block vocabulary of the generic `except Exception` handler
(line 871). -/
def excBlockWords : List String :=
  ["captcha", "503", "429", "rate", "blocked", "denied", "forbidden"]

/-! ## `parse_price` (lines 294-322) -/

/-- Index of the last occurrence of `x` (Python `str.rindex`). -/
def lastIndexOf (x : Char) : List Char → Option Nat
  | [] => none
  | c :: cs =>
      match lastIndexOf x cs with
      | some i => some (i + 1)
      | none => if c = x then some 0 else none

/-- Digit-list value. -/
def natOfDigits (l : List Char) : Nat :=
  l.foldl (fun n c => 10 * n + (c.toNat - 48)) 0

/-- `Decimal(cleaned)`: succeeds on a nonempty string of digits with at most
one decimal point and at least one digit, otherwise raises (`none`). -/
def parseDecimal (l : List Char) : Option ℚ :=
  if l.all (fun c => c.isDigit || c = '.') && l.count '.' ≤ 1 && (l.filter Char.isDigit) ≠ [] then
    let ip := l.takeWhile (fun c => c ≠ '.')
    let frac := (l.dropWhile (fun c => c ≠ '.')).drop 1
    some ((natOfDigits ip : ℚ) + (natOfDigits frac : ℚ) / (10 : ℚ) ^ frac.length)
  else none

/-- `parse_price`: strip non-numeric characters, normalise the decimal
separator (US vs European), and convert; `None` when `Decimal` would raise. -/
def parse_price (s : String) : Option ℚ :=
  if s = "" || s = "N/A" then none
  else
    let cl := s.data.filter (fun c => c.isDigit || c = '.' || c = ',')
    let cleaned :=
      if cl.contains ',' && cl.contains '.' then
        match lastIndexOf ',' cl, lastIndexOf '.' cl with
        | some ic, some j =>
            if j < ic then
              (cl.filter (fun c => c ≠ '.')).map (fun c => if c = ',' then '.' else c)
            else cl.filter (fun c => c ≠ ',')
        | _, _ => cl
      else if cl.contains ',' then
        match lastIndexOf ',' cl with
        | some ic =>
            if cl.length - ic - 1 = 2 then cl.map (fun c => if c = ',' then '.' else c)
            else cl.filter (fun c => c ≠ ',')
        | none => cl
      else cl
    parseDecimal cleaned

/-- Python truthiness of the parsed price at line 810
(`if price and insert_price_history(...)`): `Decimal("0")` is falsy. -/
def priceTruthy (p : Option ℚ) : Bool :=
  match p with
  | none => false
  | some q => q != 0

/-! ## Validation and block detection (lines 656-698) -/

/-- Python truthiness of `field and field != 'N/A'`. -/
def fieldKnown (s : String) : Bool := s != "" && s != "N/A"

/-- `validate_scraped_data`: valid iff at least one of price / rating is
usable; the reason string when invalid. -/
def validate_scraped_data (d : ProductDetails) : Bool × String :=
  let has_price := fieldKnown d.price
  let has_rating := fieldKnown d.rating
  if !has_price && !has_rating then
    (false, "No price or rating found - possible blocked page")
  else (true, "")

/-- `detect_server_block`: a fault message matching the block vocabulary, or
all four main fields unknown. -/
def detect_server_block (d : ProductDetails) (error : Option Fault) : Bool :=
  let all_na :=
    (d.price == "" || d.price == "N/A") &&
    (d.rating == "" || d.rating == "N/A") &&
    (d.brand == "" || d.brand == "N/A") &&
    (d.total_reviews == "" || d.total_reviews == "N/A")
  match error with
  | some f => if msgContainsAny f.msg detectBlockWords then true else all_na
  | none => all_na

/-! ## Incremental review loader (lines 500-560) -/

/-- The per-review insert loop of `insert_reviews_incremental`: the k-th
attempted `INSERT` commits iff `wOk k`; a failed insert is rolled back and
only logged.  Returns the count of committed inserts and their keys. -/
def insertLoop (wOk : Nat → Bool) : List Review → Nat → Nat × List String
  | [], _ => (0, [])
  | r :: rs, k =>
      let rest := insertLoop wOk rs (k + 1)
      if wOk k then (rest.1 + 1, r.review_id :: rest.2) else rest

/-- `insert_reviews_incremental`: filter the incoming reviews to those whose
`review_id` is not among the existing ids, insert each new one independently,
and return `(inserted, skipped, committed keys)`. -/
def insert_reviews_incremental (existing : List String) (reviews : List Review)
    (wOk : Nat → Bool) : Nat × Nat × List String :=
  if reviews.isEmpty then (0, 0, [])
  else
    let newReviews := reviews.filter (fun r => !(existing.contains r.review_id))
    let skipped := reviews.length - newReviews.length
    if newReviews.isEmpty then (0, skipped, [])
    else
      let res := insertLoop wOk newReviews 0
      (res.1, skipped, res.2)

/-! ## The per-item attempt driver (lines 701-884)

`scrape_and_load_product_details` reads the global `_shutdown_requested` flag
(set asynchronously by `_signal_handler`, lines 110-118).  The flag is
modelled as a stream `flag : Nat → Bool` of the values successive reads
return, threaded by a read counter `k`: the entry check reads `flag k`; the
post-scrape check (line 761, which only prints) reads `flag (k+1)`. -/

/-- `scrape_and_load_product_details`.  `scrape` is the outcome of
`scraper.scrape(product_url)` — a record or a raised fault; `db` the database
oracle.  Returns the `ScrapeResult`, the effects performed, and the next flag
read index. -/
def scrape_and_load_product_details (flag : Nat → Bool) (k : Nat) (asin : String)
    (force : Bool) (updatedToday : Bool) (scrape : Except Fault ProductDetails)
    (db : DbOracle) : ScrapeResult × ScrapeEffects × Nat :=
  if flag k then
    (⟨asin, .interrupted, "Shutdown requested before scraping started", false, 0, false⟩,
     noEffects, k + 1)
  else if !force && updatedToday then
    (⟨asin, .skipped, "Already updated today", false, 0, false⟩, noEffects, k + 1)
  else
    let scrapeEff : ScrapeEffects := ⟨true, false, false, false, false, false⟩
    match scrape with
    | .error f =>
      match f.kind with
      | .keyboardInterrupt =>
          (⟨asin, .interrupted, "Keyboard interrupt", false, 0, false⟩, scrapeEff, k + 1)
      | .connectionError =>
          (⟨asin, .network_error, f.msg, false, 0, false⟩, scrapeEff, k + 1)
      | .timeoutError =>
          (⟨asin, .network_error, "Timeout: " ++ f.msg, false, 0, false⟩, scrapeEff, k + 1)
      | .otherError =>
          if msgContainsAny f.msg excBlockWords then
            (⟨asin, .server_error, f.msg, false, 0, false⟩, scrapeEff, k + 1)
          else
            (⟨asin, .unknown_error, f.msg, false, 0, false⟩, scrapeEff, k + 1)
    | .ok details =>
      let _ := flag (k + 1)
      let k' := k + 2
      let v := validate_scraped_data details
      if !v.1 then
        if detect_server_block details none then
          (⟨asin, .server_error, "Server block detected - all fields empty", false, 0, false⟩,
           scrapeEff, k')
        else
          (⟨asin, .no_data, v.2, false, 0, false⟩, scrapeEff, k')
      else
        let details_saved := db.detailsOk
        let pt := priceTruthy (parse_price details.price)
        let price_saved := pt && db.priceOk
        let r :=
          if details.reviews.isEmpty then (0, 0, ([] : List String))
          else insert_reviews_incremental db.existing_ids details.reviews db.reviewOk
        let statusAttempted := details_saved || price_saved
        let statusUpdated := statusAttempted && db.statusOk
        if statusAttempted then
          (⟨asin, .success, "", price_saved, r.1, details_saved⟩,
           ⟨true, true, pt, !details.reviews.isEmpty, true, statusUpdated⟩, k')
        else
          (⟨asin, .no_data, "Could not save any data to database", price_saved, r.1, details_saved⟩,
           ⟨true, true, pt, !details.reviews.isEmpty, false, false⟩, k')

/-! ## The batch driver (`run_etl_batch`, lines 937-1071) -/

/-- One queued work item together with the collaborator behaviour its attempt
would see. -/
structure ItemSpec where
  asin : String
  updatedToday : Bool
  scrape : Except Fault ProductDetails
  db : DbOracle

/-- The `stats` dictionary of `run_etl_batch`. -/
structure BatchStats where
  total : Nat
  success : Nat
  skipped : Nat
  no_data : Nat
  server_errors : Nat
  network_errors : Nat
  other_errors : Nat
  interrupted : Bool
  processed : List (String × ScrapeStatus)
deriving DecidableEq, Repr

/-- Record one finished item: append to `products_processed` and bump the
matching counter (lines 1006-1041); `interrupted` results bump no counter
(the loop sets the flag and breaks). -/
def recordResult (st : BatchStats) (r : ScrapeResult) : BatchStats :=
  let st := { st with processed := st.processed ++ [(r.asin, r.status)] }
  match r.status with
  | .success => { st with success := st.success + 1 }
  | .skipped => { st with skipped := st.skipped + 1 }
  | .no_data => { st with no_data := st.no_data + 1 }
  | .server_error => { st with server_errors := st.server_errors + 1 }
  | .network_error => { st with network_errors := st.network_errors + 1 }
  | .interrupted => st
  | _ => { st with other_errors := st.other_errors + 1 }

/-- The item loop of `run_etl_batch` (lines 996-1041): check the shutdown
flag at the top of each iteration and break; otherwise run the attempt,
record it, break on an interrupted result, and (except after the last item)
read the flag once more in the delay guard. -/
def runBatchLoop (flag : Nat → Bool) : List ItemSpec → Nat → BatchStats → BatchStats
  | [], _, st => st
  | item :: rest, k, st =>
      if flag k then { st with interrupted := true }
      else
        let out := scrape_and_load_product_details flag (k + 1) item.asin false
          item.updatedToday item.scrape item.db
        let st' := recordResult st out.1
        if out.1.status = ScrapeStatus.interrupted then { st' with interrupted := true }
        else
          let k2 := if rest.isEmpty then out.2.2 else out.2.2 + 1
          runBatchLoop flag rest k2 st'

/-- `run_etl_batch` after the work list is fetched: process the items from a
fresh stats record. -/
def run_etl_batch (flag : Nat → Bool) (items : List ItemSpec) : BatchStats :=
  runBatchLoop flag items 0 ⟨items.length, 0, 0, 0, 0, 0, 0, false, []⟩

/-! ## Listing pagination (`best_sells_scraping.py` lines 282-349) -/

/-- `Product` (lines 60-66). -/
structure Product where
  name : String
  url : String
  image_url : String
  asin : String
deriving DecidableEq, Repr

/-- One rendered listing page, as the parser sees it: the products
`parse_products` extracts and the next-page link `get_next_page_url` finds
(lines 191-200: `None` when no `li.a-last` anchor exists). -/
structure ListingPage where
  products : List Product
  nextUrl : Option String
deriving DecidableEq, Repr

/-- `ScrapingResult` (lines 72-84). -/
structure ScrapingResult where
  products : List Product
  pages_processed : Nat
deriving DecidableEq, Repr

/-- `AmazonBestSellersScraper._scrape_all_pages` (lines 319-349): for each
displayed page, extend the accumulated products, set `pages_processed` to the
current page number, and follow the next-page link until none remains.  The
list holds the successive pages the browser displays. -/
def scrape_all_pages : List ListingPage → Nat → ScrapingResult → ScrapingResult
  | [], _, acc => acc
  | pg :: rest, n, acc =>
      let acc' : ScrapingResult := ⟨acc.products ++ pg.products, n⟩
      match pg.nextUrl with
      | some _ => scrape_all_pages rest (n + 1) acc'
      | none => acc'

/-- The traversal as `run` starts it: page number 1, empty result. -/
def run_scraper (pages : List ListingPage) : ScrapingResult :=
  scrape_all_pages pages 1 ⟨[], 0⟩

/-! ## Review extraction (`page_scraping.py` lines 426-462) -/

/-- One `li[data-hook=review]` element: its `id` attribute (absent ⇒
`element.get` falls back to the default), the parsed fields, and whether
`_parse_single_review` succeeds on it (it returns `None` on an exception). -/
structure RElem where
  idAttr : Option String
  stars : String
  date : String
  location : String
  title : String
  text : String
  verified_purchase : Bool
  helpful_count : String
  parseOk : Bool
deriving DecidableEq, Repr

/-- `_parse_single_review` (lines 464-569): the review id is
`review_elem.get('id', 'N/A')`. -/
def parse_single_review (e : RElem) : Option Review :=
  if e.parseOk then
    some ⟨e.idAttr.getD "N/A", e.stars, e.date, e.location, e.title, e.text,
      e.verified_purchase, e.helpful_count⟩
  else none

/-- The review containers of one product page: the local list
(`ul#cm-cr-dp-review-list`), the global list (`ul#cm-cr-global-review-list`) —
each `none` when the container is absent — and the whole-page fallback scan. -/
structure PageReviews where
  localList : Option (List RElem)
  globalList : Option (List RElem)
  allPage : List RElem

/-- The element scan of `extract_reviews`: `review_id = elem.get('id', '')`;
skip empty or already-seen ids, add the id to `seen_ids` before parsing, and
append the parsed review when parsing succeeds. -/
def scanReviewElems : List RElem → List String → List Review → List String × List Review
  | [], seen, acc => (seen, acc)
  | e :: es, seen, acc =>
      let rid := e.idAttr.getD ""
      if rid != "" && !(seen.contains rid) then
        match parse_single_review e with
        | some r => scanReviewElems es (rid :: seen) (acc ++ [r])
        | none => scanReviewElems es (rid :: seen) acc
      else scanReviewElems es seen acc

/-- `ProductPageParser.extract_reviews`: scan the local then the global
container, and only when no review was collected fall back to scanning every
review element of the page (`seen_ids` persists into the fallback). -/
def extract_reviews (pg : PageReviews) : List Review :=
  let s1 :=
    match pg.localList with
    | some es => scanReviewElems es [] []
    | none => (([] : List String), ([] : List Review))
  let s2 :=
    match pg.globalList with
    | some es => scanReviewElems es s1.1 s1.2
    | none => s1
  if s2.2.isEmpty then (scanReviewElems pg.allPage s2.1 s2.2).2 else s2.2

end Dw

namespace Dw

/-! ## Lemmas about the observation-sequence scroller -/

/-- Unfolding `streakStep`. -/
theorem streakStep_def (p : Nat × Nat) (c : Nat) :
    streakStep p c = if c = p.1 then (p.1, p.2 + 1) else (c, 0) := rfl

/-- `scrollObserve` on an exhausted observation list. -/
theorem scrollObserve_nil (maxStreak last streak used : Nat) :
    scrollObserve maxStreak [] last streak used =
      if maxStreak ≤ streak then some (last, used) else none := rfl

/-- `scrollObserve` consuming one observation. -/
theorem scrollObserve_cons (maxStreak c : Nat) (rest : List Nat) (last streak used : Nat) :
    scrollObserve maxStreak (c :: rest) last streak used =
      if maxStreak ≤ streak then some (last, used)
      else if c = last then scrollObserve maxStreak rest last (streak + 1) (used + 1)
      else scrollObserve maxStreak rest c 0 (used + 1) := rfl

/-- The streak counter grows by at most one per observation. -/
theorem streakFold_le (cs : List Nat) : ∀ p : Nat × Nat,
    (cs.foldl streakStep p).2 ≤ p.2 + cs.length := by
  induction cs with
  | nil => intro p; simp
  | cons c t ih =>
      intro p
      rw [List.foldl_cons]
      have h1 : (streakStep p c).2 ≤ p.2 + 1 := by
        unfold streakStep; split <;> simp
      have h2 := ih (streakStep p c)
      simp only [List.length_cons]
      omega

/-- If the final streak is at least `m`, the last `m` observations all equal
the final `last_count`. -/
theorem streakFold_suffix (cs : List Nat) : ∀ (p : Nat × Nat) (m : Nat),
    m ≤ (cs.foldl streakStep p).2 → m ≤ cs.length →
    cs.drop (cs.length - m) = List.replicate m (cs.foldl streakStep p).1 := by
  induction cs using List.reverseRecOn with
  | nil =>
      intro p m h1 h2
      simp only [List.length_nil, Nat.le_zero] at h2
      subst h2
      simp
  | append_singleton ds c ih =>
      intro p m h1 h2
      rw [List.foldl_append, List.foldl_cons, List.foldl_nil] at h1 ⊢
      by_cases hc : c = (ds.foldl streakStep p).1
      · rw [streakStep_def, if_pos hc] at h1 ⊢
        cases m with
        | zero => simp
        | succ m' =>
            have hm1 : m' ≤ (ds.foldl streakStep p).2 := by omega
            have hm2 : m' ≤ ds.length := by
              simp only [List.length_append, List.length_cons, List.length_nil] at h2
              omega
            have hd := ih p m' hm1 hm2
            have hlen : (ds ++ [c]).length - (m' + 1) = ds.length - m' := by
              simp only [List.length_append, List.length_cons, List.length_nil]
              omega
            rw [hlen, List.drop_append_of_le_length (by omega), hd,
              List.replicate_succ' m' _, hc]
      · rw [streakStep_def, if_neg hc] at h1 ⊢
        simp only [Nat.le_zero] at h1
        subst h1
        simp

/-- Soundness of the observation loop: if it exits having consumed `n - used`
further observations, the streak automaton run over exactly that prefix first
reaches the streak bound there, and returns its `last_count`. -/
theorem scrollObserve_sound (maxStreak : Nat) : ∀ (cs : List Nat) (last streak used v n : Nat),
    scrollObserve maxStreak cs last streak used = some (v, n) →
    used ≤ n ∧ n - used ≤ cs.length ∧
    ((cs.take (n - used)).foldl streakStep (last, streak)).1 = v ∧
    maxStreak ≤ ((cs.take (n - used)).foldl streakStep (last, streak)).2 ∧
    ∀ m, m < n - used → ((cs.take m).foldl streakStep (last, streak)).2 < maxStreak := by
  intro cs
  induction cs with
  | nil =>
      intro last streak used v n h
      rw [scrollObserve_nil] at h
      by_cases hs : maxStreak ≤ streak
      · rw [if_pos hs] at h
        simp only [Option.some_inj, Prod.mk.injEq] at h
        obtain ⟨hv, hn⟩ := h
        subst hv; subst hn
        refine ⟨le_rfl, by simp, by simp, by simpa using hs, ?_⟩
        intro m hm
        omega
      · rw [if_neg hs] at h
        exact absurd h (by simp)
  | cons c rest ih =>
      intro last streak used v n h
      rw [scrollObserve_cons] at h
      by_cases hs : maxStreak ≤ streak
      · rw [if_pos hs] at h
        simp only [Option.some_inj, Prod.mk.injEq] at h
        obtain ⟨hv, hn⟩ := h
        subst hv; subst hn
        refine ⟨le_rfl, by simp, by simp, by simpa using hs, ?_⟩
        intro m hm
        omega
      · rw [if_neg hs] at h
        have hstep : ∀ x, streakStep (last, streak) c = x →
            scrollObserve maxStreak rest x.1 x.2 (used + 1) = some (v, n) →
            used ≤ n ∧ n - used ≤ (c :: rest).length ∧
            (((c :: rest).take (n - used)).foldl streakStep (last, streak)).1 = v ∧
            maxStreak ≤ (((c :: rest).take (n - used)).foldl streakStep (last, streak)).2 ∧
            ∀ m, m < n - used →
              (((c :: rest).take m).foldl streakStep (last, streak)).2 < maxStreak := by
          intro x hx h'
          obtain ⟨h1, h2, h3, h4, h5⟩ := ih x.1 x.2 (used + 1) v n h'
          have hnu : n - used = (n - (used + 1)) + 1 := by omega
          have htake : (c :: rest).take (n - used) = c :: rest.take (n - (used + 1)) := by
            rw [hnu]; rfl
          have hfold : ∀ l : List Nat,
              (c :: l).foldl streakStep (last, streak) = l.foldl streakStep x := by
            intro l; rw [List.foldl_cons, hx]
          refine ⟨by omega, ?_, ?_, ?_, ?_⟩
          · simp only [List.length_cons]; omega
          · rw [htake, hfold]
            cases x
            exact h3
          · rw [htake, hfold]
            cases x
            exact h4
          · intro m hm
            cases m with
            | zero =>
                simpa using Nat.lt_of_not_le hs
            | succ m' =>
                have : (c :: rest).take (m' + 1) = c :: rest.take m' := rfl
                rw [this, hfold]
                have hm' : m' < n - (used + 1) := by omega
                have := h5 m' hm'
                cases x
                exact this
        by_cases hc : c = last
        · rw [if_pos hc] at h
          exact hstep (last, streak + 1) (by simp [streakStep, hc]) h
        · rw [if_neg hc] at h
          exact hstep (c, 0) (by simp [streakStep, hc]) h

/-- Completeness: if some prefix of the injected sequence drives the streak
automaton to the bound, the loop does exit. -/
theorem scrollObserve_complete (maxStreak : Nat) : ∀ (cs : List Nat) (last streak used : Nat),
    (∃ m, m ≤ cs.length ∧ maxStreak ≤ ((cs.take m).foldl streakStep (last, streak)).2) →
    (scrollObserve maxStreak cs last streak used).isSome := by
  intro cs
  induction cs with
  | nil =>
      intro last streak used ⟨m, hm, hfold⟩
      simp only [List.length_nil, Nat.le_zero] at hm
      subst hm
      simp only [List.take_nil, List.foldl_nil] at hfold
      rw [scrollObserve_nil, if_pos hfold]
      rfl
  | cons c rest ih =>
      intro last streak used ⟨m, hm, hfold⟩
      rw [scrollObserve_cons]
      by_cases hs : maxStreak ≤ streak
      · rw [if_pos hs]; rfl
      · rw [if_neg hs]
        cases m with
        | zero =>
            simp only [List.take_zero, List.foldl_nil] at hfold
            exact absurd hfold hs
        | succ m' =>
            have htake : (c :: rest).take (m' + 1) = c :: rest.take m' := rfl
            rw [htake, List.foldl_cons] at hfold
            have hm' : m' ≤ rest.length := by
              simp only [List.length_cons] at hm; omega
            by_cases hc : c = last
            · rw [if_pos hc]
              refine ih last (streak + 1) (used + 1) ⟨m', hm', ?_⟩
              rwa [show streakStep (last, streak) c = (last, streak + 1) by
                simp [streakStep, hc]] at hfold
            · rw [if_neg hc]
              refine ih c 0 (used + 1) ⟨m', hm', ?_⟩
              rwa [show streakStep (last, streak) c = (c, 0) by
                simp [streakStep, hc]] at hfold

/-- C1: for every injected sequence of item-count observations and every
`maxNoChangeStreak ≥ 1`, `scroll_until_all_loaded` returns the value observed
`maxNoChangeStreak` consecutive times without change — the run consumes `n`
observations with `n` no larger than the sequence length, the last
`maxNoChangeStreak` of them all equal the returned value, the streak bound is
reached there and at no earlier prefix (first stabilization) — and whenever
some prefix of the sequence stabilizes, the loop does exit. -/
theorem scrollUntilStable_spec (maxStreak : Nat) (counts : List Nat) (hmax : 1 ≤ maxStreak) :
    (∀ v n, scrollUntilStable maxStreak counts = some (v, n) →
      n ≤ counts.length ∧
      (streakFold (counts.take n)).1 = v ∧
      maxStreak ≤ (streakFold (counts.take n)).2 ∧
      (∀ m, m < n → (streakFold (counts.take m)).2 < maxStreak) ∧
      maxStreak ≤ n ∧
      (counts.take n).drop (n - maxStreak) = List.replicate maxStreak v) ∧
    ((∃ m, m ≤ counts.length ∧ maxStreak ≤ (streakFold (counts.take m)).2) →
      (scrollUntilStable maxStreak counts).isSome) := by
  constructor
  · intro v n h
    obtain ⟨h1, h2, h3, h4, h5⟩ := scrollObserve_sound maxStreak counts 0 0 0 v n h
    rw [Nat.sub_zero] at h2 h3 h4
    have h5' : ∀ m, m < n → ((counts.take m).foldl streakStep (0, 0)).2 < maxStreak := by
      intro m hm
      have := h5 m (by omega)
      exact this
    have hlen : (counts.take n).length = n := by
      rw [List.length_take]; omega
    have hmn : maxStreak ≤ n := by
      have := streakFold_le (counts.take n) (0, 0)
      rw [hlen] at this
      omega
    have hsuf := streakFold_suffix (counts.take n) (0, 0) maxStreak h4 (by omega)
    rw [hlen, h3] at hsuf
    exact ⟨h2, h3, h4, h5', hmn, hsuf⟩
  · intro ⟨m, hm, hf⟩
    exact scrollObserve_complete maxStreak counts 0 0 0 ⟨m, hm, hf⟩

/-- The spec's example run: sequence `[10,15,15,15,15]`, streak bound 3,
returning 15 after five observations. -/
theorem scrollUntilStable_spec_witness :
    scrollUntilStable 3 [10, 15, 15, 15, 15] = some (15, 5) ∧
    5 ≤ ([10, 15, 15, 15, 15] : List Nat).length ∧
    (streakFold (([10, 15, 15, 15, 15] : List Nat).take 5)).1 = 15 ∧
    (([10, 15, 15, 15, 15] : List Nat).take 5).drop (5 - 3) = List.replicate 3 15 := by
  have h0 : scrollUntilStable 3 [10, 15, 15, 15, 15] = some (15, 5) := by decide
  have h := (scrollUntilStable_spec 3 [10, 15, 15, 15, 15] (by decide)).1 15 5 h0
  exact ⟨h0, h.1, h.2.1, h.2.2.2.2.2⟩

/-! ## Lemmas about the full scroll loop -/

/-- `scrollRun` out of fuel. -/
theorem scrollRun_zero (maxAttempts step : Nat) (S : Surface) (st : ScrollSt) :
    scrollRun maxAttempts step S 0 st =
      if maxAttempts ≤ st.noChange then some st.lastCount else none := rfl

/-- `scrollRun` one iteration. -/
theorem scrollRun_succ (maxAttempts step : Nat) (S : Surface) (fuel : Nat) (st : ScrollSt) :
    scrollRun maxAttempts step S (fuel + 1) st =
      if maxAttempts ≤ st.noChange then some st.lastCount
      else scrollRun maxAttempts step S fuel (scrollIter step S st) := rfl

/-- An observing iteration whose fresh count equals `last_count`. -/
theorem scrollIter_observe_eq (step : Nat) (S : Surface) (st : ScrollSt)
    (h : S.heights st.hIdx ≤ st.pos + step) (hc : S.counts st.cIdx = st.lastCount) :
    scrollIter step S st =
      ⟨st.lastCount, st.noChange + 1,
       if S.heights st.hIdx < S.heights (st.hIdx + 1) then S.heights st.hIdx else st.pos + step,
       st.hIdx + 2, st.cIdx + 1, st.sIdx + 1⟩ := by
  simp [scrollIter, h, hc]

/-- An observing iteration whose fresh count differs from `last_count`. -/
theorem scrollIter_observe_ne (step : Nat) (S : Surface) (st : ScrollSt)
    (h : S.heights st.hIdx ≤ st.pos + step) (hc : S.counts st.cIdx ≠ st.lastCount) :
    scrollIter step S st =
      ⟨S.counts st.cIdx, 0,
       if S.heights st.hIdx < S.heights (st.hIdx + 1) then S.heights st.hIdx else st.pos + step,
       st.hIdx + 2, st.cIdx + 1, st.sIdx + 1⟩ := by
  simp [scrollIter, h, hc]

/-- An iteration that only scrolls (position still below the page height). -/
theorem scrollIter_skip (step : Nat) (S : Surface) (st : ScrollSt)
    (h : ¬ S.heights st.hIdx ≤ st.pos + step) :
    scrollIter step S st =
      ⟨st.lastCount, st.noChange, st.pos + step, st.hIdx + 1, st.cIdx, st.sIdx + 1⟩ := by
  simp [scrollIter, h]

/-- On the ever-growing page every iteration observes a fresh, larger count,
so the no-change streak is reset forever. -/
theorem divergingSurface_run_none : ∀ (fuel : Nat) (st : ScrollSt),
    st.noChange = 0 → st.lastCount ≤ st.cIdx →
    scrollRun 3 800 divergingSurface fuel st = none := by
  intro fuel
  induction fuel with
  | zero =>
      intro st h0 h1
      rw [scrollRun_zero, if_neg (by omega)]
  | succ f ih =>
      intro st h0 h1
      rw [scrollRun_succ, if_neg (by omega)]
      have hobs : divergingSurface.heights st.hIdx ≤ st.pos + 800 := Nat.zero_le _
      have hne : divergingSurface.counts st.cIdx ≠ st.lastCount := by
        show st.cIdx + 1 ≠ st.lastCount
        omega
      rw [scrollIter_observe_ne 800 divergingSurface st hobs hne]
      exact ih _ rfl (by show st.cIdx + 1 ≤ st.cIdx + 1; omega)

/-- C2 counterexample: a page model on which `scroll_until_all_loaded` never
exits — each observation reports one more item, so no run of
`max_no_change_attempts = 3` no-change observations ever occurs. -/
theorem scroll_nonterminating :
    ¬ ScrollTerminates 3 800 divergingSurface := by
  intro ⟨fuel, v, h⟩
  have : scrollRun 3 800 divergingSurface fuel ⟨0, 0, 0, 0, 0, 0⟩ = none :=
    divergingSurface_run_none fuel ⟨0, 0, 0, 0, 0, 0⟩ rfl (Nat.le_refl 0)
  rw [show scroll_until_all_loaded 3 800 divergingSurface fuel
      = scrollRun 3 800 divergingSurface fuel ⟨0, 0, 0, 0, 0, 0⟩ from rfl, this] at h
  exact Option.noConfusion h

/-- Termination of the scroll loop from any fresh state, for a surface with
bounded heights and eventually constant counts: strong induction on the
potential `(B+1)·(N+1+maxAttempts − cIdx) + (B − pos)`. -/
theorem scroll_term_aux (maxAttempts step B N c : Nat) (S : Surface)
    (hstep : 1 ≤ step) (hB : ∀ k, S.heights k ≤ B) (hN : ∀ k, N ≤ k → S.counts k = c) :
    ∀ n (st : ScrollSt),
      (B + 1) * (N + 1 + maxAttempts - st.cIdx) + (B - st.pos) ≤ n →
      (N + 1 ≤ st.cIdx → st.lastCount = c) →
      (N + 1 ≤ st.cIdx → st.cIdx - (N + 1) ≤ st.noChange) →
      ∃ fuel v, scrollRun maxAttempts step S fuel st = some v := by
  intro n
  induction n with
  | zero =>
      intro st hφ hJ hI
      by_cases hnc : maxAttempts ≤ st.noChange
      · exact ⟨0, st.lastCount, by rw [scrollRun_zero, if_pos hnc]⟩
      · exfalso
        have hcl : st.cIdx < N + 1 + maxAttempts := by
          by_cases h : N + 1 ≤ st.cIdx
          · have := hI h; omega
          · omega
        have h1 : 1 ≤ N + 1 + maxAttempts - st.cIdx := by omega
        have h2 : B + 1 ≤ (B + 1) * (N + 1 + maxAttempts - st.cIdx) :=
          Nat.le_mul_of_pos_right (B + 1) (by omega)
        omega
  | succ n ih =>
      intro st hφ hJ hI
      by_cases hnc : maxAttempts ≤ st.noChange
      · exact ⟨0, st.lastCount, by rw [scrollRun_zero, if_pos hnc]⟩
      · have hcl : st.cIdx < N + 1 + maxAttempts := by
          by_cases h : N + 1 ≤ st.cIdx
          · have := hI h; omega
          · omega
        have hHB : S.heights st.hIdx ≤ B := hB _
        have hrec : ∀ st' : ScrollSt,
            scrollIter step S st = st' →
            (B + 1) * (N + 1 + maxAttempts - st'.cIdx) + (B - st'.pos) ≤ n →
            (N + 1 ≤ st'.cIdx → st'.lastCount = c) →
            (N + 1 ≤ st'.cIdx → st'.cIdx - (N + 1) ≤ st'.noChange) →
            ∃ fuel v, scrollRun maxAttempts step S fuel st = some v := by
          intro st' heq hφ' hJ' hI'
          obtain ⟨fuel, v, hrun⟩ := ih st' hφ' hJ' hI'
          exact ⟨fuel + 1, v, by rw [scrollRun_succ, if_neg hnc, heq]; exact hrun⟩
        have hmul : (B + 1) * (N + 1 + maxAttempts - st.cIdx)
            = (B + 1) * (N + 1 + maxAttempts - (st.cIdx + 1)) + (B + 1) := by
          have hd : N + 1 + maxAttempts - st.cIdx
              = (N + 1 + maxAttempts - (st.cIdx + 1)) + 1 := by omega
          rw [hd, Nat.mul_succ]
        by_cases hobs : S.heights st.hIdx ≤ st.pos + step
        · by_cases hceq : S.counts st.cIdx = st.lastCount
          · refine hrec _ (scrollIter_observe_eq step S st hobs hceq) ?_ ?_ ?_
            · dsimp only
              rw [hmul] at hφ
              omega
            · dsimp only
              intro h
              have := hN st.cIdx (by omega)
              omega
            · dsimp only
              intro h
              by_cases h' : N + 1 ≤ st.cIdx
              · have := hI h'; omega
              · omega
          · refine hrec _ (scrollIter_observe_ne step S st hobs hceq) ?_ ?_ ?_
            · dsimp only
              rw [hmul] at hφ
              omega
            · dsimp only
              intro h
              exact hN st.cIdx (by omega)
            · dsimp only
              intro h
              have hle : st.cIdx ≤ N := by
                by_contra hgt
                have h' : N + 1 ≤ st.cIdx := by omega
                have h1 := hJ h'
                have h2 := hN st.cIdx (by omega)
                exact hceq (by rw [h1, h2])
              omega
        · refine hrec _ (scrollIter_skip step S st hobs) ?_ ?_ ?_
          · dsimp only
            have hlt : st.pos + step < S.heights st.hIdx := by omega
            omega
          · dsimp only
            exact hJ
          · dsimp only
            exact hI

/-- C2 amended: the convergence scroller terminates on every page model whose
reported heights stay bounded and whose reported item counts are eventually
constant, from the fresh loop state of either handler (`LazyLoadScrollHandler`
starts at position 0; `ReviewScrollHandler` at the read offset `p0`).  It need
not terminate on an ever-growing page (`scroll_nonterminating`). -/
theorem scroll_terminates_of_stable (maxAttempts step B N c : Nat) (S : Surface)
    (hstep : 1 ≤ step) (hB : ∀ k, S.heights k ≤ B) (hN : ∀ k, N ≤ k → S.counts k = c) :
    ScrollTerminates maxAttempts step S ∧
    ∀ p0, ∃ fuel v, scrollRun maxAttempts step S fuel ⟨0, 0, p0, 0, 0, 0⟩ = some v := by
  constructor
  · exact scroll_term_aux maxAttempts step B N c S hstep hB hN
      ((B + 1) * (N + 1 + maxAttempts - 0) + (B - 0)) ⟨0, 0, 0, 0, 0, 0⟩
      le_rfl (by dsimp only; intro h; omega) (by dsimp only; intro h; omega)
  · intro p0
    exact scroll_term_aux maxAttempts step B N c S hstep hB hN
      ((B + 1) * (N + 1 + maxAttempts - 0) + (B - p0)) ⟨0, 0, p0, 0, 0, 0⟩
      le_rfl (by dsimp only; intro h; omega) (by dsimp only; intro h; omega)

/-- A concrete stabilizing page: constant height 5, constant count 7. -/
theorem scroll_terminates_of_stable_witness :
    ScrollTerminates 3 1 ⟨fun _ => 5, fun _ => 7⟩ := by
  exact (scroll_terminates_of_stable 3 1 5 0 7 ⟨fun _ => 5, fun _ => 7⟩
    le_rfl (fun _ => le_rfl) (fun _ _ => rfl)).1

/-! ## Lemmas about the faulting-surface loop -/

/-- `scrollRunE` out of fuel. -/
theorem scrollRunE_zero (maxAttempts step : Nat) (S : ExcSurface) (st : ScrollSt) :
    scrollRunE maxAttempts step S 0 st =
      if maxAttempts ≤ st.noChange then some (.ok st.lastCount) else none := rfl

/-- `scrollRunE` one iteration. -/
theorem scrollRunE_succ (maxAttempts step : Nat) (S : ExcSurface) (fuel : Nat) (st : ScrollSt) :
    scrollRunE maxAttempts step S (fuel + 1) st =
      if maxAttempts ≤ st.noChange then some (.ok st.lastCount)
      else
        match scrollIterE step S st with
        | .error e => some (.error e)
        | .ok st' => scrollRunE maxAttempts step S fuel st' := rfl

/-- When every loop read succeeds, a faulting-surface iteration agrees with
the pure iteration. -/
theorem scrollIterE_ok (step : Nat) (E : ExcSurface) (P : Surface)
    (hh : ∀ k, E.heights k = .ok (P.heights k)) (hc : ∀ k, E.counts k = .ok (P.counts k))
    (hs : ∀ k, E.scrolls k = .ok ()) (st : ScrollSt) :
    scrollIterE step E st = .ok (scrollIter step P st) := by
  unfold scrollIterE scrollIter
  rw [hh st.hIdx, hs st.sIdx, hh (st.hIdx + 1), hc st.cIdx]
  by_cases hcase : P.heights st.hIdx ≤ st.pos + step
  · simp only [if_pos hcase]
  · simp only [if_neg hcase]

/-- When every loop read succeeds, the faulting-surface loop agrees with the
pure loop. -/
theorem scrollRunE_ok (maxAttempts step : Nat) (E : ExcSurface) (P : Surface)
    (hh : ∀ k, E.heights k = .ok (P.heights k)) (hc : ∀ k, E.counts k = .ok (P.counts k))
    (hs : ∀ k, E.scrolls k = .ok ()) : ∀ (fuel : Nat) (st : ScrollSt),
    scrollRunE maxAttempts step E fuel st =
      (scrollRun maxAttempts step P fuel st).map Except.ok := by
  intro fuel
  induction fuel with
  | zero =>
      intro st
      rw [scrollRunE_zero, scrollRun_zero]
      by_cases h : maxAttempts ≤ st.noChange
      · rw [if_pos h, if_pos h]; rfl
      · rw [if_neg h, if_neg h]; rfl
  | succ f ih =>
      intro st
      rw [scrollRunE_succ, scrollRun_succ]
      by_cases h : maxAttempts ≤ st.noChange
      · rw [if_pos h, if_pos h]; rfl
      · rw [if_neg h, if_neg h, scrollIterE_ok step E P hh hc hs st]
        exact ih _

/-- C8 counterexample: a render surface whose first height read raises makes
`scroll_until_all_loaded` raise — the fault propagates instead of counting as
a zero-delta observation. -/
theorem review_scroll_raises :
    review_scroll_until_all_loaded 3 800 faultingSurface 10 = some (.error "read timeout") := rfl

/-- C8 amended: `scroll_until_all_loaded` propagates any fault raised by the
loop's height, scroll or count reads or the initial position read; faults are
swallowed only by the two scroll-into-view helpers, an arbitrary (even
faulting) behaviour of which leaves the result equal to the pure run. -/
theorem review_scroll_no_raise (maxAttempts step fuel p0 : Nat) (E : ExcSurface) (P : Surface)
    (hh : ∀ k, E.heights k = .ok (P.heights k)) (hc : ∀ k, E.counts k = .ok (P.counts k))
    (hs : ∀ k, E.scrolls k = .ok ()) (hp : E.initPos = .ok p0) :
    review_scroll_until_all_loaded maxAttempts step E fuel
      = (scrollRun maxAttempts step P fuel ⟨0, 0, p0, 0, 0, 0⟩).map Except.ok := by
  unfold review_scroll_until_all_loaded
  rw [hp]
  dsimp only
  rw [scrollRunE_ok maxAttempts step E P hh hc hs fuel ⟨0, 0, p0, 0, 0, 0⟩]
  cases scrollRun maxAttempts step P fuel ⟨0, 0, p0, 0, 0, 0⟩ with
  | none => rfl
  | some v => rfl

/-- A concrete surface whose scroll-into-view operations fault but whose
reads succeed: the run still returns normally. -/
theorem review_scroll_no_raise_witness :
    review_scroll_until_all_loaded 3 800
      ⟨fun _ => .ok 0, fun _ => .ok 2, fun _ => .ok (), .ok 0, .error "boom", .error "boom"⟩ 10
      = (scrollRun 3 800 ⟨fun _ => 0, fun _ => 2⟩ 10 ⟨0, 0, 0, 0, 0, 0⟩).map Except.ok := by
  exact review_scroll_no_raise 3 800 10 0 _ _ (fun _ => rfl) (fun _ => rfl) (fun _ => rfl) rfl

/-! ## Lemmas about the incremental review loader -/

/-- When every individual insert commits, the insert loop inserts every new
review, in order. -/
theorem insertLoop_all_ok (wOk : Nat → Bool) (hw : ∀ k, wOk k = true) :
    ∀ (l : List Review) (k : Nat),
      insertLoop wOk l k = (l.length, l.map (fun r => r.review_id)) := by
  intro l
  induction l with
  | nil => intro k; rfl
  | cons r rs ih =>
      intro k
      simp [insertLoop, hw k, ih (k + 1)]

/-- C3: with every attempted write committing, `insert_reviews_incremental`
returns `inserted + skipped = len(incoming)`, commits exactly the incoming
reviews whose key is not among the existing keys (in order), and a second call
over the enlarged key set inserts nothing, whatever the write behaviour then. -/
theorem insert_reviews_incremental_delta (existing : List String) (reviews : List Review)
    (wOk : Nat → Bool) (hw : ∀ k, wOk k = true) :
    (insert_reviews_incremental existing reviews wOk).1
        + (insert_reviews_incremental existing reviews wOk).2.1 = reviews.length ∧
    (insert_reviews_incremental existing reviews wOk).2.2
        = (reviews.filter (fun r => !(existing.contains r.review_id))).map
            (fun r => r.review_id) ∧
    (insert_reviews_incremental existing reviews wOk).1
        = (reviews.filter (fun r => !(existing.contains r.review_id))).length ∧
    ∀ wOk2 : Nat → Bool,
      insert_reviews_incremental
          (existing ++ (insert_reviews_incremental existing reviews wOk).2.2) reviews wOk2
        = (0, reviews.length, []) := by
  have hcons : ∀ (ex2 : List String) (r : Review) (rs : List Review) (w : Nat → Bool),
      insert_reviews_incremental ex2 (r :: rs) w =
        if ((r :: rs).filter (fun x => !(ex2.contains x.review_id))).isEmpty
        then (0, (r :: rs).length
               - ((r :: rs).filter (fun x => !(ex2.contains x.review_id))).length, [])
        else ((insertLoop w ((r :: rs).filter (fun x => !(ex2.contains x.review_id))) 0).1,
              (r :: rs).length
                - ((r :: rs).filter (fun x => !(ex2.contains x.review_id))).length,
              (insertLoop w ((r :: rs).filter (fun x => !(ex2.contains x.review_id))) 0).2) :=
    fun _ _ _ _ => rfl
  have hsecond : ∀ (ex2 : List String) (wOk2 : Nat → Bool),
      (∀ r ∈ reviews, r.review_id ∈ ex2) →
      insert_reviews_incremental ex2 reviews wOk2 = (0, reviews.length, []) := by
    intro ex2 wOk2 hmem
    cases reviews with
    | nil => rfl
    | cons r rs =>
        have hfil : (r :: rs).filter (fun x => !(ex2.contains x.review_id)) = [] := by
          rw [List.filter_eq_nil_iff]
          intro a ha
          simp [hmem a ha]
        rw [hcons, hfil]
        rfl
  cases reviews with
  | nil =>
      refine ⟨rfl, rfl, rfl, ?_⟩
      intro wOk2
      rfl
  | cons r rs =>
      have hlenf := List.length_filter_le
        (fun x => !(existing.contains x.review_id)) (r :: rs)
      by_cases hnil : (r :: rs).filter (fun x => !(existing.contains x.review_id)) = []
      · have h1 : insert_reviews_incremental existing (r :: rs) wOk
            = (0, (r :: rs).length, []) := by
          rw [hcons, hnil]
          rfl
        rw [h1]
        refine ⟨by dsimp only; omega, by rw [hnil]; rfl, by rw [hnil]; rfl, ?_⟩
        intro wOk2
        rw [show ((0, (r :: rs).length, ([] : List String)) :
            Nat × Nat × List String).2.2 = ([] : List String) from rfl]
        rw [List.append_nil]
        refine hsecond existing wOk2 ?_
        intro a ha
        by_contra hnot
        have hmf : a ∈ (r :: rs).filter (fun x => !(existing.contains x.review_id)) := by
          rw [List.mem_filter]
          refine ⟨ha, ?_⟩
          simpa using hnot
        rw [hnil] at hmf
        exact absurd hmf (List.not_mem_nil a)
      · have hne : ¬ ((r :: rs).filter (fun x => !(existing.contains x.review_id))).isEmpty
            = true := by
          rw [List.isEmpty_iff]
          exact hnil
        have hloop := insertLoop_all_ok wOk hw
          ((r :: rs).filter (fun x => !(existing.contains x.review_id))) 0
        have h1 : insert_reviews_incremental existing (r :: rs) wOk
            = (((r :: rs).filter (fun x => !(existing.contains x.review_id))).length,
               (r :: rs).length
                 - ((r :: rs).filter (fun x => !(existing.contains x.review_id))).length,
               ((r :: rs).filter (fun x => !(existing.contains x.review_id))).map
                 (fun x => x.review_id)) := by
          rw [hcons, if_neg hne, hloop]
        rw [h1]
        refine ⟨by dsimp only; omega, rfl, rfl, ?_⟩
        intro wOk2
        refine hsecond _ wOk2 ?_
        intro a ha
        by_cases hcon : existing.contains a.review_id = true
        · exact List.mem_append_left _ (List.elem_iff.mp hcon)
        · refine List.mem_append_right _ ?_
          show a.review_id ∈ ((r :: rs).filter
            (fun x => !(existing.contains x.review_id))).map (fun x => x.review_id)
          refine List.mem_map.mpr ⟨a, ?_, rfl⟩
          rw [List.mem_filter]
          refine ⟨ha, ?_⟩
          simpa using fun hm => hcon (List.elem_iff.mpr hm)

/-- The spec's example: `existingKeys = {"r1","r2"}`,
`incoming = ["r1","r3","r4"]` gives `inserted = 2, skipped = 1`, exactly the
new keys committed, and a repeat call inserts nothing. -/
theorem insert_reviews_incremental_delta_witness :
    (insert_reviews_incremental ["r1", "r2"]
        [⟨"r1", "", "", "", "", "", false, ""⟩, ⟨"r3", "", "", "", "", "", false, ""⟩,
         ⟨"r4", "", "", "", "", "", false, ""⟩] (fun _ => true)).1
      + (insert_reviews_incremental ["r1", "r2"]
        [⟨"r1", "", "", "", "", "", false, ""⟩, ⟨"r3", "", "", "", "", "", false, ""⟩,
         ⟨"r4", "", "", "", "", "", false, ""⟩] (fun _ => true)).2.1 = 3 ∧
    insert_reviews_incremental ["r1", "r2"]
        [⟨"r1", "", "", "", "", "", false, ""⟩, ⟨"r3", "", "", "", "", "", false, ""⟩,
         ⟨"r4", "", "", "", "", "", false, ""⟩] (fun _ => true) = (2, 1, ["r3", "r4"]) ∧
    insert_reviews_incremental (["r1", "r2"] ++ ["r3", "r4"])
        [⟨"r1", "", "", "", "", "", false, ""⟩, ⟨"r3", "", "", "", "", "", false, ""⟩,
         ⟨"r4", "", "", "", "", "", false, ""⟩] (fun _ => false) = (0, 3, []) := by
  have h := insert_reviews_incremental_delta ["r1", "r2"]
    [⟨"r1", "", "", "", "", "", false, ""⟩, ⟨"r3", "", "", "", "", "", false, ""⟩,
     ⟨"r4", "", "", "", "", "", false, ""⟩] (fun _ => true) (fun _ => rfl)
  refine ⟨h.1, by decide, ?_⟩
  have h4 := h.2.2.2 (fun _ => false)
  exact h4

/-! ## Lemmas about validation, block detection and the attempt driver -/

/-- A field failing the truthiness test satisfies the unknown test of
`detect_server_block`. -/
theorem unknown_of_not_fieldKnown (s : String) (h : fieldKnown s = false) :
    (s == "" || s == "N/A") = true := by
  simp only [fieldKnown] at h
  simp only [Bool.or_eq_true, beq_iff_eq]
  by_cases hx : s = ""
  · exact Or.inl hx
  · right
    by_contra hy
    rw [Bool.and_eq_false_iff] at h
    cases h with
    | inl h => simp [bne_iff_ne] at h; exact hx h
    | inr h => simp [bne_iff_ne] at h; exact hy h

/-- A usable field fails the unknown test of `detect_server_block`. -/
theorem known_of_fieldKnown (s : String) (h : fieldKnown s = true) :
    (s == "" || s == "N/A") = false := by
  simp only [fieldKnown, Bool.and_eq_true, bne_iff_ne] at h
  simp only [Bool.or_eq_false_iff, beq_eq_false_iff_ne]
  exact h

/-- `validate_scraped_data` on a record with no usable price and no usable
rating. -/
theorem validate_invalid (d : ProductDetails)
    (h1 : fieldKnown d.price = false) (h2 : fieldKnown d.rating = false) :
    validate_scraped_data d
      = (false, "No price or rating found - possible blocked page") := by
  unfold validate_scraped_data
  rw [h1, h2]
  rfl

/-- `detect_server_block` without a fault, all four main fields unknown. -/
theorem detect_block_all_unknown (d : ProductDetails)
    (h1 : fieldKnown d.price = false) (h2 : fieldKnown d.rating = false)
    (h3 : fieldKnown d.brand = false) (h4 : fieldKnown d.total_reviews = false) :
    detect_server_block d none = true := by
  unfold detect_server_block
  rw [unknown_of_not_fieldKnown _ h1, unknown_of_not_fieldKnown _ h2,
    unknown_of_not_fieldKnown _ h3, unknown_of_not_fieldKnown _ h4]
  rfl

/-- `detect_server_block` without a fault, brand or review count present. -/
theorem detect_block_some_known (d : ProductDetails)
    (h : fieldKnown d.brand = true ∨ fieldKnown d.total_reviews = true) :
    detect_server_block d none = false := by
  unfold detect_server_block
  cases h with
  | inl hb => rw [known_of_fieldKnown _ hb]; simp
  | inr hr => rw [known_of_fieldKnown _ hr]; simp

/-- C4: a no-fault attempt whose extracted record has all of price, rating,
brand and review-count unknown is classified `server_blocked`; one with price
and rating unknown but brand or review-count present is classified `no_data`
(the validity check runs first, then the block heuristic). -/
theorem no_fault_record_classification (asin : String) (force : Bool)
    (d : ProductDetails) (db : DbOracle) :
    (fieldKnown d.price = false → fieldKnown d.rating = false →
      fieldKnown d.brand = false → fieldKnown d.total_reviews = false →
      (scrape_and_load_product_details (fun _ => false) 0 asin force false
        (.ok d) db).1.status = ScrapeStatus.server_error) ∧
    (fieldKnown d.price = false → fieldKnown d.rating = false →
      (fieldKnown d.brand = true ∨ fieldKnown d.total_reviews = true) →
      (scrape_and_load_product_details (fun _ => false) 0 asin force false
        (.ok d) db).1.status = ScrapeStatus.no_data) := by
  constructor
  · intro h1 h2 h3 h4
    have hv := validate_invalid d h1 h2
    have hd := detect_block_all_unknown d h1 h2 h3 h4
    simp [scrape_and_load_product_details, hv, hd]
  · intro h1 h2 h3
    have hv := validate_invalid d h1 h2
    have hd := detect_block_some_known d h3
    simp [scrape_and_load_product_details, hv, hd]

/-- An all-unknown record classifies `server_blocked`; a record with only the
brand known classifies `no_data`. -/
theorem no_fault_record_classification_witness :
    (scrape_and_load_product_details (fun _ => false) 0 "A1" false false
      (.ok ⟨"N/A", "A1", "N/A", "u", "N/A", "N/A", ⟨"0%", "0%", "0%", "0%", "0%"⟩, []⟩)
      ⟨[], true, true, true, fun _ => true⟩).1.status = ScrapeStatus.server_error ∧
    (scrape_and_load_product_details (fun _ => false) 0 "A1" false false
      (.ok ⟨"N/A", "A1", "Sony", "u", "N/A", "N/A", ⟨"0%", "0%", "0%", "0%", "0%"⟩, []⟩)
      ⟨[], true, true, true, fun _ => true⟩).1.status = ScrapeStatus.no_data := by
  constructor
  · exact (no_fault_record_classification "A1" false
      ⟨"N/A", "A1", "N/A", "u", "N/A", "N/A", ⟨"0%", "0%", "0%", "0%", "0%"⟩, []⟩
      ⟨[], true, true, true, fun _ => true⟩).1 rfl rfl rfl rfl
  · exact (no_fault_record_classification "A1" false
      ⟨"N/A", "A1", "Sony", "u", "N/A", "N/A", ⟨"0%", "0%", "0%", "0%", "0%"⟩, []⟩
      ⟨[], true, true, true, fun _ => true⟩).2 rfl rfl (Or.inl rfl)

/-- C5 counterexample: a connectivity fault whose message contains the
blocking word "blocked" is classified `network_error`, not `server_blocked` —
the `except ConnectionError` clause matches before the vocabulary check ever
runs, so the vocabulary rule does not take priority over the connectivity
rule. -/
theorem fault_vocabulary_no_priority :
    msgContainsAny "connection blocked by host" excBlockWords = true ∧
    (scrape_and_load_product_details (fun _ => false) 0 "A1" false false
      (.error ⟨.connectionError, "connection blocked by host"⟩)
      ⟨[], true, true, true, fun _ => true⟩).1.status = ScrapeStatus.network_error ∧
    ScrapeStatus.network_error ≠ ScrapeStatus.server_error := by
  refine ⟨by decide, rfl, ?_⟩
  intro h
  exact ScrapeStatus.noConfusion h

/-- C5 amended: connectivity and timeout faults are always classified
`network_error`, regardless of their message; the blocking-vocabulary rule
applies only to other non-interrupt faults, which classify `server_blocked`
exactly when the lowercased message contains a vocabulary word (the code's
list also includes "rate"), and `unknown_error` otherwise. -/
theorem fault_classification (asin : String) (force updatedToday : Bool)
    (f : Fault) (db : DbOracle) (hg : (!force && updatedToday) = false) :
    ((f.kind = FaultKind.connectionError ∨ f.kind = FaultKind.timeoutError) →
      (scrape_and_load_product_details (fun _ => false) 0 asin force updatedToday
        (.error f) db).1.status = ScrapeStatus.network_error) ∧
    (f.kind = FaultKind.otherError → msgContainsAny f.msg excBlockWords = true →
      (scrape_and_load_product_details (fun _ => false) 0 asin force updatedToday
        (.error f) db).1.status = ScrapeStatus.server_error) ∧
    (f.kind = FaultKind.otherError → msgContainsAny f.msg excBlockWords = false →
      (scrape_and_load_product_details (fun _ => false) 0 asin force updatedToday
        (.error f) db).1.status = ScrapeStatus.unknown_error) ∧
    (f.kind = FaultKind.keyboardInterrupt →
      (scrape_and_load_product_details (fun _ => false) 0 asin force updatedToday
        (.error f) db).1.status = ScrapeStatus.interrupted) := by
  obtain ⟨kind, msg⟩ := f
  refine ⟨?_, ?_, ?_, ?_⟩
  · intro h
    cases h with
    | inl h => subst h; simp [scrape_and_load_product_details, hg]
    | inr h => subst h; simp [scrape_and_load_product_details, hg]
  · intro h hm
    subst h
    simp [scrape_and_load_product_details, hg, hm]
  · intro h hm
    subst h
    simp [scrape_and_load_product_details, hg, hm]
  · intro h
    subst h
    simp [scrape_and_load_product_details, hg]

/-- Each fault kind at a concrete message: "HTTP 503" over a timeout fault is
still a network error; over a generic fault it is a server error; a
vocabulary-free generic fault is an unknown error. -/
theorem fault_classification_witness :
    (scrape_and_load_product_details (fun _ => false) 0 "A1" false false
      (.error ⟨.timeoutError, "HTTP 503"⟩)
      ⟨[], true, true, true, fun _ => true⟩).1.status = ScrapeStatus.network_error ∧
    (scrape_and_load_product_details (fun _ => false) 0 "A1" false false
      (.error ⟨.otherError, "HTTP 503"⟩)
      ⟨[], true, true, true, fun _ => true⟩).1.status = ScrapeStatus.server_error ∧
    (scrape_and_load_product_details (fun _ => false) 0 "A1" false false
      (.error ⟨.otherError, "odd failure"⟩)
      ⟨[], true, true, true, fun _ => true⟩).1.status = ScrapeStatus.unknown_error := by
  refine ⟨?_, ?_, ?_⟩
  · exact (fault_classification "A1" false false ⟨.timeoutError, "HTTP 503"⟩
      ⟨[], true, true, true, fun _ => true⟩ rfl).1 (Or.inr rfl)
  · exact (fault_classification "A1" false false ⟨.otherError, "HTTP 503"⟩
      ⟨[], true, true, true, fun _ => true⟩ rfl).2.1 rfl (by decide)
  · exact (fault_classification "A1" false false ⟨.otherError, "odd failure"⟩
      ⟨[], true, true, true, fun _ => true⟩ rfl).2.2.1 rfl (by decide)

/-- C6 counterexample: a valid record (rating present) whose primary-record
insert fails and which has no usable price, but whose one new review commits:
a persistence write committed, yet the catalog status update is not attempted
and the outcome is demoted to `no_data` — the code only consults
`details_saved` and `price_saved`, not the review delta. -/
theorem status_update_ignores_reviews :
    (scrape_and_load_product_details (fun _ => false) 0 "A1" false false
      (.ok ⟨"N/A", "A1", "Sony", "u", "4.5", "100", ⟨"0%", "0%", "0%", "0%", "0%"⟩,
        [⟨"r9", "5", "d", "l", "t", "x", true, "h"⟩]⟩)
      ⟨[], false, true, true, fun _ => true⟩).1.reviews_added = 1 ∧
    ((scrape_and_load_product_details (fun _ => false) 0 "A1" false false
      (.ok ⟨"N/A", "A1", "Sony", "u", "4.5", "100", ⟨"0%", "0%", "0%", "0%", "0%"⟩,
        [⟨"r9", "5", "d", "l", "t", "x", true, "h"⟩]⟩)
      ⟨[], false, true, true, fun _ => true⟩).2.1).statusAttempted = false ∧
    ((scrape_and_load_product_details (fun _ => false) 0 "A1" false false
      (.ok ⟨"N/A", "A1", "Sony", "u", "4.5", "100", ⟨"0%", "0%", "0%", "0%", "0%"⟩,
        [⟨"r9", "5", "d", "l", "t", "x", true, "h"⟩]⟩)
      ⟨[], false, true, true, fun _ => true⟩).2.1).statusUpdated = false ∧
    (scrape_and_load_product_details (fun _ => false) 0 "A1" false false
      (.ok ⟨"N/A", "A1", "Sony", "u", "4.5", "100", ⟨"0%", "0%", "0%", "0%", "0%"⟩,
        [⟨"r9", "5", "d", "l", "t", "x", true, "h"⟩]⟩)
      ⟨[], false, true, true, fun _ => true⟩).1.status = ScrapeStatus.no_data := by
  exact ⟨rfl, rfl, rfl, rfl⟩

/-- C6 amended: on a success-classified attempt the catalog status update is
attempted iff the primary record or the price point committed (a committed
review delta alone does not count), the update itself commits iff the status
write also succeeds, and when neither of those two writes committed the
outcome is demoted to `no_data`. -/
theorem status_update_iff_details_or_price (asin : String) (force : Bool)
    (d : ProductDetails) (db : DbOracle) (hv : (validate_scraped_data d).1 = true) :
    ((scrape_and_load_product_details (fun _ => false) 0 asin force false
        (.ok d) db).2.1).statusAttempted
      = ((scrape_and_load_product_details (fun _ => false) 0 asin force false
          (.ok d) db).1.details_saved
        || (scrape_and_load_product_details (fun _ => false) 0 asin force false
            (.ok d) db).1.price_saved) ∧
    ((scrape_and_load_product_details (fun _ => false) 0 asin force false
        (.ok d) db).2.1).statusUpdated
      = (((scrape_and_load_product_details (fun _ => false) 0 asin force false
           (.ok d) db).2.1).statusAttempted && db.statusOk) ∧
    (scrape_and_load_product_details (fun _ => false) 0 asin force false
        (.ok d) db).1.status
      = (if ((scrape_and_load_product_details (fun _ => false) 0 asin force false
              (.ok d) db).1.details_saved
            || (scrape_and_load_product_details (fun _ => false) 0 asin force false
                (.ok d) db).1.price_saved)
         then ScrapeStatus.success else ScrapeStatus.no_data) ∧
    (scrape_and_load_product_details (fun _ => false) 0 asin force false
        (.ok d) db).1.details_saved = db.detailsOk ∧
    (scrape_and_load_product_details (fun _ => false) 0 asin force false
        (.ok d) db).1.price_saved
      = (priceTruthy (parse_price d.price) && db.priceOk) := by
  by_cases hsa : (db.detailsOk || priceTruthy (parse_price d.price) && db.priceOk) = true
  · refine ⟨?_, ?_, ?_, ?_, ?_⟩ <;>
      simp [scrape_and_load_product_details, hv, hsa]
  · refine ⟨?_, ?_, ?_, ?_, ?_⟩ <;>
      simp [scrape_and_load_product_details, hv, hsa]

/-- A fully committing attempt: details and price save, so the status update
is attempted, commits, and the outcome stays `success`. -/
theorem status_update_iff_details_or_price_witness :
    ((scrape_and_load_product_details (fun _ => false) 0 "A1" false false
      (.ok ⟨"$10.99", "A1", "Sony", "u", "4.4", "100", ⟨"0%", "0%", "0%", "0%", "0%"⟩, []⟩)
      ⟨[], true, true, true, fun _ => true⟩).2.1).statusAttempted
      = ((scrape_and_load_product_details (fun _ => false) 0 "A1" false false
          (.ok ⟨"$10.99", "A1", "Sony", "u", "4.4", "100", ⟨"0%", "0%", "0%", "0%", "0%"⟩, []⟩)
          ⟨[], true, true, true, fun _ => true⟩).1.details_saved
        || (scrape_and_load_product_details (fun _ => false) 0 "A1" false false
            (.ok ⟨"$10.99", "A1", "Sony", "u", "4.4", "100", ⟨"0%", "0%", "0%", "0%", "0%"⟩, []⟩)
            ⟨[], true, true, true, fun _ => true⟩).1.price_saved) := by
  exact (status_update_iff_details_or_price "A1" false
    ⟨"$10.99", "A1", "Sony", "u", "4.4", "100", ⟨"0%", "0%", "0%", "0%", "0%"⟩, []⟩
    ⟨[], true, true, true, fun _ => true⟩ rfl).1

/-! ## Lemmas about the batch loop and cancellation -/

/-- Unfolding `runBatchLoop` on a non-empty work list. -/
theorem runBatchLoop_cons (flag : Nat → Bool) (item : ItemSpec) (rest : List ItemSpec)
    (k : Nat) (st : BatchStats) :
    runBatchLoop flag (item :: rest) k st =
      if flag k then { st with interrupted := true }
      else
        let out := scrape_and_load_product_details flag (k + 1) item.asin false
          item.updatedToday item.scrape item.db
        let st' := recordResult st out.1
        if out.1.status = ScrapeStatus.interrupted then { st' with interrupted := true }
        else runBatchLoop flag rest (if rest.isEmpty then out.2.2 else out.2.2 + 1) st' := rfl

/-- An attempt whose entry flag read returns true is reported interrupted
with no work performed. -/
theorem scrape_and_load_flag_true (flag : Nat → Bool) (k : Nat) (asin : String)
    (force updatedToday : Bool) (scrape : Except Fault ProductDetails) (db : DbOracle)
    (h : flag k = true) :
    scrape_and_load_product_details flag k asin force updatedToday scrape db
      = (⟨asin, ScrapeStatus.interrupted, "Shutdown requested before scraping started",
          false, 0, false⟩, noEffects, k + 1) := by
  unfold scrape_and_load_product_details
  rw [h]
  rfl

/-- C7: once the cancellation flag reads true, (i) the batch loop breaks at
the top of the next iteration, leaving the remaining items unprocessed;
(ii) an attempt whose entry check observes the flag is reported interrupted
with no render/scrape work or writes; (iii) when the flag turns true between
the loop-top check and the entry check, that one item is recorded as
interrupted and the loop stops; (iv) an attempt whose extraction already
completed ignores the post-scrape flag read entirely — its result and
persistence effects equal those of an uncancelled run, and on a valid record
the primary-record write is still attempted. -/
theorem cancellation_semantics :
    (∀ (flag : Nat → Bool) (item : ItemSpec) (rest : List ItemSpec) (k : Nat)
        (st : BatchStats), flag k = true →
      runBatchLoop flag (item :: rest) k st = { st with interrupted := true }) ∧
    (∀ (flag : Nat → Bool) (k : Nat) (asin : String) (force updatedToday : Bool)
        (scrape : Except Fault ProductDetails) (db : DbOracle), flag k = true →
      scrape_and_load_product_details flag k asin force updatedToday scrape db
        = (⟨asin, ScrapeStatus.interrupted, "Shutdown requested before scraping started",
            false, 0, false⟩, noEffects, k + 1)) ∧
    (∀ (flag : Nat → Bool) (item : ItemSpec) (rest : List ItemSpec) (k : Nat)
        (st : BatchStats), flag k = false → flag (k + 1) = true →
      runBatchLoop flag (item :: rest) k st
        = { recordResult st ⟨item.asin, ScrapeStatus.interrupted,
              "Shutdown requested before scraping started", false, 0, false⟩ with
            interrupted := true }) ∧
    (∀ (flag : Nat → Bool) (k : Nat) (asin : String) (force updatedToday : Bool)
        (d : ProductDetails) (db : DbOracle), flag k = false →
      (scrape_and_load_product_details flag k asin force updatedToday (.ok d) db).1
        = (scrape_and_load_product_details (fun _ => false) k asin force updatedToday
            (.ok d) db).1 ∧
      (scrape_and_load_product_details flag k asin force updatedToday (.ok d) db).2.1
        = (scrape_and_load_product_details (fun _ => false) k asin force updatedToday
            (.ok d) db).2.1) ∧
    (∀ (flag : Nat → Bool) (k : Nat) (asin : String) (force : Bool)
        (d : ProductDetails) (db : DbOracle), flag k = false →
      (validate_scraped_data d).1 = true →
      ((scrape_and_load_product_details flag k asin force false (.ok d) db).2.1).scrapeAttempted
        = true ∧
      ((scrape_and_load_product_details flag k asin force false (.ok d) db).2.1).detailsAttempted
        = true) := by
  refine ⟨?_, ?_, ?_, ?_, ?_⟩
  · intro flag item rest k st h
    rw [runBatchLoop_cons, if_pos (by rw [h])]
  · intro flag k asin force updatedToday scrape db h
    exact scrape_and_load_flag_true flag k asin force updatedToday scrape db h
  · intro flag item rest k st h0 h1
    rw [runBatchLoop_cons, if_neg (by rw [h0]; simp)]
    rw [scrape_and_load_flag_true flag (k + 1) item.asin false item.updatedToday
      item.scrape item.db h1]
    rfl
  · intro flag k asin force updatedToday d db h0
    unfold scrape_and_load_product_details
    rw [h0]
    exact ⟨rfl, rfl⟩
  · intro flag k asin force d db h0 hv
    by_cases hsa : (db.detailsOk || priceTruthy (parse_price d.price) && db.priceOk) = true <;>
      constructor <;>
        simp [scrape_and_load_product_details, h0, hv, hsa]

/-- The cancellation scenarios at concrete inputs: flag already set at the
loop top; flag set between loop top and attempt entry; flag set right after
extraction, with the success path still persisting. -/
theorem cancellation_semantics_witness :
    runBatchLoop (fun _ => true)
        [⟨"A1", false,
          .ok ⟨"$10.99", "A1", "Sony", "u", "4.4", "100", ⟨"0%", "0%", "0%", "0%", "0%"⟩, []⟩,
          ⟨[], true, true, true, fun _ => true⟩⟩] 0
        ⟨1, 0, 0, 0, 0, 0, 0, false, []⟩
      = { (⟨1, 0, 0, 0, 0, 0, 0, false, []⟩ : BatchStats) with interrupted := true } ∧
    runBatchLoop (fun j => decide (1 ≤ j))
        [⟨"A1", false,
          .ok ⟨"$10.99", "A1", "Sony", "u", "4.4", "100", ⟨"0%", "0%", "0%", "0%", "0%"⟩, []⟩,
          ⟨[], true, true, true, fun _ => true⟩⟩] 0
        ⟨1, 0, 0, 0, 0, 0, 0, false, []⟩
      = { recordResult ⟨1, 0, 0, 0, 0, 0, 0, false, []⟩
            ⟨"A1", ScrapeStatus.interrupted,
              "Shutdown requested before scraping started", false, 0, false⟩ with
          interrupted := true } ∧
    (scrape_and_load_product_details (fun j => decide (1 ≤ j)) 0 "A1" false false
        (.ok ⟨"$10.99", "A1", "Sony", "u", "4.4", "100", ⟨"0%", "0%", "0%", "0%", "0%"⟩, []⟩)
        ⟨[], true, true, true, fun _ => true⟩).1
      = (scrape_and_load_product_details (fun _ => false) 0 "A1" false false
          (.ok ⟨"$10.99", "A1", "Sony", "u", "4.4", "100", ⟨"0%", "0%", "0%", "0%", "0%"⟩, []⟩)
          ⟨[], true, true, true, fun _ => true⟩).1 ∧
    ((scrape_and_load_product_details (fun j => decide (1 ≤ j)) 0 "A1" false false
        (.ok ⟨"$10.99", "A1", "Sony", "u", "4.4", "100", ⟨"0%", "0%", "0%", "0%", "0%"⟩, []⟩)
        ⟨[], true, true, true, fun _ => true⟩).2.1).detailsAttempted = true := by
  refine ⟨?_, ?_, ?_, ?_⟩
  · exact cancellation_semantics.1 (fun _ => true) _ [] 0 _ rfl
  · exact cancellation_semantics.2.2.1 (fun j => decide (1 ≤ j)) _ [] 0 _ rfl rfl
  · exact (cancellation_semantics.2.2.2.1 (fun j => decide (1 ≤ j)) 0 "A1" false false
      ⟨"$10.99", "A1", "Sony", "u", "4.4", "100", ⟨"0%", "0%", "0%", "0%", "0%"⟩, []⟩
      ⟨[], true, true, true, fun _ => true⟩ rfl).1
  · exact (cancellation_semantics.2.2.2.2 (fun j => decide (1 ≤ j)) 0 "A1" false
      ⟨"$10.99", "A1", "Sony", "u", "4.4", "100", ⟨"0%", "0%", "0%", "0%", "0%"⟩, []⟩
      ⟨[], true, true, true, fun _ => true⟩ rfl rfl).2

/-! ## Lemmas about the listing paginator -/

/-- Unfolding `scrape_all_pages` on a displayed page. -/
theorem scrape_all_pages_cons (pg : ListingPage) (rest : List ListingPage) (n : Nat)
    (acc : ScrapingResult) :
    scrape_all_pages (pg :: rest) n acc =
      match pg.nextUrl with
      | some _ => scrape_all_pages rest (n + 1) ⟨acc.products ++ pg.products, n⟩
      | none => ⟨acc.products ++ pg.products, n⟩ := rfl

/-- The traversal accumulates every displayed page's products, in page order,
and counts the pages, as long as exactly the last page lacks a next link. -/
theorem scrape_all_pages_aux (last : ListingPage) (hl : last.nextUrl = none) :
    ∀ (front : List ListingPage) (n : Nat) (acc : ScrapingResult),
      (∀ p ∈ front, p.nextUrl.isSome = true) →
      scrape_all_pages (front ++ [last]) n acc
        = ⟨acc.products ++ ((front ++ [last]).map (fun p => p.products)).flatten,
           n + front.length⟩ := by
  intro front
  induction front with
  | nil =>
      intro n acc _
      rw [List.nil_append, scrape_all_pages_cons, hl]
      simp
  | cons p front' ih =>
      intro n acc hf
      obtain ⟨u, hu⟩ := Option.isSome_iff_exists.mp (hf p (List.mem_cons_self p front'))
      rw [List.cons_append, scrape_all_pages_cons, hu]
      rw [ih (n + 1) ⟨acc.products ++ p.products, n⟩
        (fun q hq => hf q (List.mem_cons_of_mem p hq))]
      simp [List.append_assoc]
      omega

/-- C9: over a traversal of `front ++ [last]` pages where every front page
has a next-page link and the last page has none, `_scrape_all_pages` collects
exactly the concatenation of every page's extracted records, in page order,
and reports `pages_processed` equal to the number of pages. -/
theorem scrape_all_pages_totals (front : List ListingPage) (last : ListingPage)
    (hf : ∀ p ∈ front, p.nextUrl.isSome = true) (hl : last.nextUrl = none) :
    run_scraper (front ++ [last])
      = ⟨((front ++ [last]).map (fun p => p.products)).flatten,
         (front ++ [last]).length⟩ := by
  unfold run_scraper
  rw [scrape_all_pages_aux last hl front 1 ⟨[], 0⟩ hf]
  simp
  omega

/-- A two-page traversal: one product on page 1 (with a next link), two on
page 2 (without): all three products in order, two pages processed. -/
theorem scrape_all_pages_totals_witness :
    run_scraper (([⟨[⟨"p1", "", "", "a1"⟩], some "u2"⟩] : List ListingPage)
        ++ ([⟨[⟨"p2", "", "", "a2"⟩, ⟨"p3", "", "", "a3"⟩], none⟩] : List ListingPage))
      = ⟨((([⟨[⟨"p1", "", "", "a1"⟩], some "u2"⟩] : List ListingPage)
          ++ ([⟨[⟨"p2", "", "", "a2"⟩, ⟨"p3", "", "", "a3"⟩], none⟩] : List ListingPage)).map
            (fun p => p.products)).flatten,
         (([⟨[⟨"p1", "", "", "a1"⟩], some "u2"⟩] : List ListingPage)
          ++ ([⟨[⟨"p2", "", "", "a2"⟩, ⟨"p3", "", "", "a3"⟩], none⟩] : List ListingPage)).length⟩ := by
  refine scrape_all_pages_totals [⟨[⟨"p1", "", "", "a1"⟩], some "u2"⟩]
    ⟨[⟨"p2", "", "", "a2"⟩, ⟨"p3", "", "", "a3"⟩], none⟩ ?_ rfl
  intro p hp
  rw [List.mem_singleton] at hp
  rw [hp]
  rfl

/-! ## Lemmas about review extraction -/

/-- Unfolding the element scan. -/
theorem scanReviewElems_cons (e : RElem) (es : List RElem) (seen : List String)
    (acc : List Review) :
    scanReviewElems (e :: es) seen acc =
      if (e.idAttr.getD "") != "" && !(seen.contains (e.idAttr.getD "")) then
        match parse_single_review e with
        | some r => scanReviewElems es ((e.idAttr.getD "") :: seen) (acc ++ [r])
        | none => scanReviewElems es ((e.idAttr.getD "") :: seen) acc
      else scanReviewElems es seen acc := rfl

/-- The scan invariant: collected reviews have non-empty ids recorded in
`seen_ids`, pairwise distinct. -/
theorem scanReviewElems_invariant : ∀ (es : List RElem) (seen : List String)
    (acc : List Review),
    (∀ r ∈ acc, r.review_id ≠ "" ∧ r.review_id ∈ seen) →
    acc.Pairwise (fun a b => a.review_id ≠ b.review_id) →
    (∀ r ∈ (scanReviewElems es seen acc).2,
      r.review_id ≠ "" ∧ r.review_id ∈ (scanReviewElems es seen acc).1) ∧
    (scanReviewElems es seen acc).2.Pairwise (fun a b => a.review_id ≠ b.review_id) := by
  intro es
  induction es with
  | nil =>
      intro seen acc hacc hpw
      exact ⟨hacc, hpw⟩
  | cons e es ih =>
      intro seen acc hacc hpw
      rw [scanReviewElems_cons]
      by_cases hcond :
          ((e.idAttr.getD "") != "" && !(seen.contains (e.idAttr.getD ""))) = true
      · rw [if_pos hcond]
        obtain ⟨hcond1, hcond2⟩ := Bool.and_eq_true_iff.mp hcond
        have hne : e.idAttr.getD "" ≠ "" := bne_iff_ne.mp hcond1
        have hnotseen : e.idAttr.getD "" ∉ seen := by
          intro hmem
          have hc : seen.contains (e.idAttr.getD "") = true := List.elem_iff.mpr hmem
          rw [hc] at hcond2
          exact Bool.noConfusion hcond2
        cases hpo : parse_single_review e with
        | none =>
            apply ih
            · intro r hr
              obtain ⟨h1, h2⟩ := hacc r hr
              exact ⟨h1, List.mem_cons_of_mem _ h2⟩
            · exact hpw
        | some r =>
            have hrid : r.review_id = e.idAttr.getD "" := by
              unfold parse_single_review at hpo
              by_cases hk : e.parseOk
              · rw [if_pos hk] at hpo
                have hinj := Option.some.inj hpo
                rw [← hinj]
                show e.idAttr.getD "N/A" = e.idAttr.getD ""
                cases ha : e.idAttr with
                | none =>
                    exfalso
                    apply hne
                    rw [ha]
                    rfl
                | some s => rfl
              · rw [if_neg hk] at hpo
                exact absurd hpo (by simp)
            apply ih
            · intro x hx
              rw [List.mem_append] at hx
              cases hx with
              | inl hx =>
                  obtain ⟨h1, h2⟩ := hacc x hx
                  exact ⟨h1, List.mem_cons_of_mem _ h2⟩
              | inr hx =>
                  rw [List.mem_singleton] at hx
                  subst hx
                  rw [hrid]
                  exact ⟨hne, List.mem_cons_self _ _⟩
            · rw [List.pairwise_append]
              refine ⟨hpw, List.pairwise_singleton _ _, ?_⟩
              intro a ha b hb
              rw [List.mem_singleton] at hb
              subst hb
              obtain ⟨_, h2⟩ := hacc a ha
              rw [hrid]
              exact fun heq => hnotseen (heq ▸ h2)
      · rw [if_neg hcond]
        exact ih seen acc hacc hpw

/-- C10: `extract_reviews` returns reviews with pairwise distinct, non-empty
review ids, across the local container, the global container and the
whole-page fallback scan. -/
theorem extract_reviews_unique_ids (pg : PageReviews) :
    (extract_reviews pg).Pairwise (fun a b => a.review_id ≠ b.review_id) ∧
    ∀ r ∈ extract_reviews pg, r.review_id ≠ "" := by
  obtain ⟨loc, glob, allp⟩ := pg
  have hbase : ∀ r ∈ ([] : List Review),
      r.review_id ≠ "" ∧ r.review_id ∈ ([] : List String) :=
    fun r hr => absurd hr (List.not_mem_nil r)
  have hfinal : ∀ (x : List String × List Review),
      (∀ r ∈ x.2, r.review_id ≠ "" ∧ r.review_id ∈ x.1) →
      x.2.Pairwise (fun a b => a.review_id ≠ b.review_id) →
      ((if x.2.isEmpty then (scanReviewElems allp x.1 x.2).2 else x.2).Pairwise
        (fun a b => a.review_id ≠ b.review_id) ∧
       ∀ r ∈ (if x.2.isEmpty then (scanReviewElems allp x.1 x.2).2 else x.2),
        r.review_id ≠ "") := by
    intro x hx hpx
    by_cases hie : x.2.isEmpty = true
    · rw [if_pos hie]
      have h3 := scanReviewElems_invariant allp x.1 x.2 hx hpx
      exact ⟨h3.2, fun r hr => (h3.1 r hr).1⟩
    · rw [if_neg hie]
      exact ⟨hpx, fun r hr => (hx r hr).1⟩
  cases loc with
  | none =>
      cases glob with
      | none =>
          exact hfinal ([], []) hbase List.Pairwise.nil
      | some esg =>
          have h2 := scanReviewElems_invariant esg [] [] hbase List.Pairwise.nil
          exact hfinal (scanReviewElems esg [] []) h2.1 h2.2
  | some esl =>
      cases glob with
      | none =>
          have h1 := scanReviewElems_invariant esl [] [] hbase List.Pairwise.nil
          exact hfinal (scanReviewElems esl [] []) h1.1 h1.2
      | some esg =>
          have h1 := scanReviewElems_invariant esl [] [] hbase List.Pairwise.nil
          have h2 := scanReviewElems_invariant esg (scanReviewElems esl [] []).1
            (scanReviewElems esl [] []).2 h1.1 h1.2
          exact hfinal (scanReviewElems esg (scanReviewElems esl [] []).1
            (scanReviewElems esl [] []).2) h2.1 h2.2

end Dw
